import Mathlib

/-!
Verification of the candy-machine statechart (`src/candy_machine.ts`).

The machine definition (states, events, guards, actions, transition table)
is embedded from the source file.  The statechart engine itself is the
external `xstate` dependency, which is not part of this repository's
sources; its event-resolution loop is modelled from the specification's
resolution algorithm (spec section 4.3): handler lookup, action execution
in declared order, state update, then the automatic-transition cascade run
to quiescence, with action failures propagating to the caller and leaving
state and context untouched.
-/

namespace CandyMachine

/-- States of the machine (`enum State` in the source). -/
inductive State where
  | NO_COIN
  | INVALID_COIN
  | VALID_COIN
  | SLOT_CLOSED
  | SHUTDOWN
deriving DecidableEq

/-- Event kinds (`enum Event` in the source). -/
inductive EventKind where
  | HALF_TURN
  | ADD_COIN
  | REMOVE_COIN
  | SHUTDOWN
  | TAMPER
deriving DecidableEq

/-- Events sent to the machine (`type Events` in the source): only
`ADD_COIN` carries a payload (integer cents). -/
inductive Event where
  | HALF_TURN
  | ADD_COIN (value : Int)
  | REMOVE_COIN
  | SHUTDOWN
  | TAMPER
deriving DecidableEq

/-- The kind (`event.type`) of an event. -/
def Event.kind : Event → EventKind
  | .HALF_TURN => .HALF_TURN
  | .ADD_COIN _ => .ADD_COIN
  | .REMOVE_COIN => .REMOVE_COIN
  | .SHUTDOWN => .SHUTDOWN
  | .TAMPER => .TAMPER

/-- Actions the machine can perform (`enum Action` in the source). -/
inductive Action where
  | DISPENSE_CANDY
  | RECORD_COIN
  | CLEAR_COIN
  | RECORD_SALE
  | LOG_SALES
  | SHUT_DOWN
  | INVALID_ACTION
deriving DecidableEq

/-- Candy colours (`enum CandyColour`). -/
inductive CandyColour where
  | RED
  | GREEN
  | BLUE
deriving DecidableEq

/-- Candy qualities (`enum CandyQuality`). -/
inductive CandyQuality where
  | GREAT
  | REGULAR
  | DISGUSTING
deriving DecidableEq

/-- The mutable context (`type Context`).  `lastDispensedAt` is an opaque
timestamp, never written after construction; it is carried as an integer. -/
structure Context where
  currentCoinValue : Int
  totalValue : Int
  numSales : Int
  lastDispensedAt : Int
deriving DecidableEq

/-- `const ValidCoins: ReadonlyArray<number> = [50, 100, 200]`. -/
def ValidCoins : List Int := [50, 100, 200]

/-- `const checkHasCoin = (currentCoinValue) => currentCoinValue !== 0`. -/
def checkHasCoin (currentCoinValue : Int) : Bool :=
  currentCoinValue != 0

/-- `const checkIsValidCoin = (currentCoinValue) => ValidCoins.includes(currentCoinValue)`. -/
def checkIsValidCoin (currentCoinValue : Int) : Bool :=
  ValidCoins.contains currentCoinValue

/-- Guard `Guards[State.VALID_COIN]`: nonzero and a valid denomination. -/
def guardValidCoin (ctx : Context) : Bool :=
  checkHasCoin ctx.currentCoinValue && checkIsValidCoin ctx.currentCoinValue

/-- Guard `Guards[State.INVALID_COIN]`: nonzero and not a valid denomination. -/
def guardInvalidCoin (ctx : Context) : Bool :=
  checkHasCoin ctx.currentCoinValue && !checkIsValidCoin ctx.currentCoinValue

/-- `Actions[Action.DISPENSE_CANDY]`, with `Math.random() * 3` made explicit:
the two draws are passed in as the arguments `randColourNum` and
`randQualityNum` (each ranging over `[0, 3)`), and the selected
colour/quality pair is returned instead of logged.  The branch structure is
exactly that of the source, including the `randColourNum < 2` test inside
the quality conditional. -/
def dispenseCandy (randColourNum randQualityNum : ℚ) : CandyColour × CandyQuality :=
  let candyColour :=
    if randColourNum < 1 then CandyColour.RED
    else if randColourNum < 2 then CandyColour.GREEN
    else CandyColour.BLUE
  let candyQuality :=
    if randQualityNum < 1 then CandyQuality.DISGUSTING
    else if randColourNum < 2 then CandyQuality.GREAT
    else CandyQuality.REGULAR
  (candyColour, candyQuality)

/-- One action application (`Actions` record in the source).  Assign actions
return the updated context; `RECORD_COIN` invoked with anything but an
`ADD_COIN` event, and `INVALID_ACTION` always, throw the offending event
kind (`throw new String(event.type)`).  `LOG_SALES`, `DISPENSE_CANDY` and
`SHUT_DOWN` only log: they leave the context untouched. -/
def applyAction : Action → Context → Event → Except EventKind Context
  | .RECORD_COIN, ctx, e =>
      match e with
      | .ADD_COIN v => .ok { ctx with currentCoinValue := v }
      | _ => .error e.kind
  | .CLEAR_COIN, ctx, _ => .ok { ctx with currentCoinValue := 0 }
  | .RECORD_SALE, ctx, _ =>
      .ok { ctx with
              totalValue := ctx.totalValue + ctx.currentCoinValue
              numSales := ctx.numSales + 1 }
  | .LOG_SALES, ctx, _ => .ok ctx
  | .DISPENSE_CANDY, ctx, _ => .ok ctx
  | .SHUT_DOWN, ctx, _ => .ok ctx
  | .INVALID_ACTION, _, e => .error e.kind

/-- Apply a declared action list in order; the first failure aborts the
transition and propagates. -/
def applyActions : List Action → Context → Event → Except EventKind Context
  | [], ctx, _ => .ok ctx
  | a :: rest, ctx, e =>
      match applyAction a ctx e with
      | .ok ctx' => applyActions rest ctx' e
      | .error k => .error k

/-- An event-triggered transition entry of the table: optional target
(`none` means an internal transition that stays in the source state) and
the declared action list. -/
structure Transition where
  target : Option State
  actions : List Action
deriving DecidableEq

/-- The per-state event handlers of `const States` in the source.
`SHUTDOWN` declares the catch-all handler `'*'`, so it handles every kind;
a `(state, kind)` pair with no declared handler yields `none`. -/
def handler : State → EventKind → Option Transition
  | .NO_COIN, .HALF_TURN => some ⟨some .SLOT_CLOSED, []⟩
  | .NO_COIN, .ADD_COIN => some ⟨none, [.RECORD_COIN]⟩
  | .NO_COIN, .SHUTDOWN => some ⟨some .SHUTDOWN, []⟩
  | .NO_COIN, .TAMPER => some ⟨none, [.INVALID_ACTION]⟩
  | .INVALID_COIN, .REMOVE_COIN => some ⟨some .NO_COIN, [.CLEAR_COIN]⟩
  | .INVALID_COIN, .TAMPER => some ⟨none, [.INVALID_ACTION]⟩
  | .VALID_COIN, .HALF_TURN =>
      some ⟨some .SLOT_CLOSED, [.RECORD_SALE, .DISPENSE_CANDY, .CLEAR_COIN]⟩
  | .VALID_COIN, .REMOVE_COIN => some ⟨some .NO_COIN, [.CLEAR_COIN]⟩
  | .VALID_COIN, .TAMPER => some ⟨none, [.INVALID_ACTION]⟩
  | .SLOT_CLOSED, .HALF_TURN => some ⟨some .NO_COIN, []⟩
  | .SLOT_CLOSED, .TAMPER => some ⟨none, [.INVALID_ACTION]⟩
  | .SHUTDOWN, _ => some ⟨none, [.INVALID_ACTION]⟩
  | _, _ => none

/-- Entry actions per state: only `SHUTDOWN` declares any. -/
def entryActions : State → List Action
  | .SHUTDOWN => [.LOG_SALES, .SHUT_DOWN]
  | _ => []

/-- The declared `always` (automatic) transitions per state, as a list of
guard/target pairs in declared order: only `NO_COIN` has any. -/
def alwaysFor : State → List ((Context → Bool) × State)
  | .NO_COIN => [(guardValidCoin, .VALID_COIN), (guardInvalidCoin, .INVALID_COIN)]
  | _ => []

/-- The first automatic transition (in declared order) whose guard holds. -/
def firstAlways : List ((Context → Bool) × State) → Context → Option State
  | [], _ => none
  | (g, t) :: rest, ctx =>
      if g ctx then some t else firstAlways rest ctx

/-- Modelled from the spec: the automatic-transition cascade of the
resolution algorithm (spec section 4.3, step 3) — the engine (`xstate`) is
not among this repository's sources.  After entering a state, the state's
automatic transitions are evaluated in declared order; the first whose
guard holds fires, the target's entry actions run, and the process repeats
until no automatic transition fires.  The fuel bounds the iteration (the
table here is cycle-free, so it is never exhausted with fuel of at least
two). -/
def settle : Nat → State → Context → Event → Except EventKind (State × Context)
  | 0, s, ctx, _ => .ok (s, ctx)
  | fuel + 1, s, ctx, e =>
      match firstAlways (alwaysFor s) ctx with
      | none => .ok (s, ctx)
      | some t =>
          match applyActions (entryActions t) ctx e with
          | .ok ctx' => settle fuel t ctx' e
          | .error k => .error k

/-- Iteration bound for the cascade; 8 is far above the table's depth. -/
def settleFuel : Nat := 8

/-- Modelled from the spec: one `send` of the resolution algorithm (spec
section 4.3) — the engine (`xstate`) is not among this repository's
sources.  Look up the handler for (current state, event kind); no handler
means the event is silently ignored.  Otherwise the handler's actions run
in declared order, the target state (if any) is entered and its entry
actions run, and the automatic-transition cascade settles the result.  A
failing action throws the offending event kind to the caller; the machine's
state and context are then left as they were. -/
def send (s : State) (ctx : Context) (e : Event) : Except EventKind (State × Context) :=
  match handler s e.kind with
  | none => .ok (s, ctx)
  | some tr =>
      match applyActions tr.actions ctx e with
      | .error k => .error k
      | .ok ctx1 =>
          match tr.target with
          | none => settle settleFuel s ctx1 e
          | some t =>
              match applyActions (entryActions t) ctx1 e with
              | .error k => .error k
              | .ok ctx2 => settle settleFuel t ctx2 e

/-- The state the machine is in after a `send`: on a failure the throw
propagates before any state update, so the machine keeps its old state. -/
def resultState (s : State) (ctx : Context) (e : Event) : State :=
  match send s ctx e with
  | .ok (s', _) => s'
  | .error _ => s

/-- The context after a `send`: a failing action throws before the context
is replaced, so the machine keeps its old context. -/
def resultCtx (s : State) (ctx : Context) (e : Event) : Context :=
  match send s ctx e with
  | .ok (_, ctx') => ctx'
  | .error _ => ctx

/-- The initial context (`context:` in `createMachine`): zero-valued fields
and a fresh construction timestamp `t0`. -/
def initContextAt (t0 : Int) : Context :=
  { currentCoinValue := 0, totalValue := 0, numSales := 0, lastDispensedAt := t0 }

/-- Reachable machine configurations: the initial configuration (the
machine starts in `NO_COIN`, whose automatic transitions do not fire on the
zero-valued context), closed under successful sends.  A failing send leaves
the configuration as it was, so it adds nothing. -/
inductive Reachable : State → Context → Prop where
  | init (t0 : Int) : Reachable .NO_COIN (initContextAt t0)
  | step {s ctx e s' ctx'} :
      Reachable s ctx → send s ctx e = .ok (s', ctx') → Reachable s' ctx'

/-- An event whose payload is non-negative (only `ADD_COIN` has one). -/
def Event.payloadNN : Event → Bool
  | .ADD_COIN v => decide (0 ≤ v)
  | _ => true

/-- Reachability along runs in which every `ADD_COIN` payload is
non-negative. -/
inductive ReachableNN : State → Context → Prop where
  | init (t0 : Int) : ReachableNN .NO_COIN (initContextAt t0)
  | step {s ctx e s' ctx'} :
      ReachableNN s ctx → e.payloadNN = true → send s ctx e = .ok (s', ctx') →
      ReachableNN s' ctx'

/-- While the machine sits in `VALID_COIN`, the coin in the slot is one of
the valid denominations: the only ways into `VALID_COIN` are guarded by
`guardValidCoin`. -/
def ValidCoinInv (s : State) (ctx : Context) : Prop :=
  s = State.VALID_COIN → ctx.currentCoinValue ∈ ValidCoins

/-- The coin-value invariant maintained along runs with non-negative
`ADD_COIN` payloads: the coin value is never negative, it is zero in the
coin-free states, and in `VALID_COIN` it is a valid denomination. -/
def CoinInv (s : State) (ctx : Context) : Prop :=
  0 ≤ ctx.currentCoinValue ∧
  ((s = State.NO_COIN ∨ s = State.SLOT_CLOSED ∨ s = State.SHUTDOWN) →
    ctx.currentCoinValue = 0) ∧
  (s = State.VALID_COIN → ctx.currentCoinValue ∈ ValidCoins)

/-! ### Basic lemmas about the cascade and the guards -/

/-- A state with no automatic transitions is already settled. -/
theorem settle_stable {s : State} (h : alwaysFor s = []) (n : Nat) (ctx : Context) (e : Event) :
    settle n s ctx e = .ok (s, ctx) := by
  cases n with
  | zero => rfl
  | succ n => simp [settle, h, firstAlways]

/-- The cascade out of `NO_COIN`: the first true guard (in declared order)
picks the target; with both guards false the state is already settled. -/
theorem settle_succ_NO_COIN (n : Nat) (ctx : Context) (e : Event) :
    settle (n + 1) .NO_COIN ctx e =
      if guardValidCoin ctx then .ok (.VALID_COIN, ctx)
      else if guardInvalidCoin ctx then .ok (.INVALID_COIN, ctx)
      else .ok (.NO_COIN, ctx) := by
  by_cases h1 : guardValidCoin ctx <;> by_cases h2 : guardInvalidCoin ctx <;>
    simp [settle, alwaysFor, firstAlways, entryActions, applyActions, h1, h2,
      settle_stable]

/-- `settle_succ_NO_COIN` at the interpreter's fuel. -/
theorem settle8_NO_COIN (ctx : Context) (e : Event) :
    settle 8 .NO_COIN ctx e =
      if guardValidCoin ctx then .ok (.VALID_COIN, ctx)
      else if guardInvalidCoin ctx then .ok (.INVALID_COIN, ctx)
      else .ok (.NO_COIN, ctx) :=
  settle_succ_NO_COIN 7 ctx e

/-- `checkIsValidCoin` decides membership in the denomination list. -/
theorem checkIsValidCoin_iff (v : Int) :
    checkIsValidCoin v = true ↔ v = 50 ∨ v = 100 ∨ v = 200 := by
  simp only [checkIsValidCoin, ValidCoins, List.contains, List.elem]
  cases h50 : v == 50 <;> cases h100 : v == 100 <;> cases h200 : v == 200 <;>
    simp_all

/-- The `VALID_COIN` guard holds exactly on the valid denominations. -/
theorem guardValidCoin_iff (ctx : Context) :
    guardValidCoin ctx = true ↔
      ctx.currentCoinValue ≠ 0 ∧ ctx.currentCoinValue ∈ ValidCoins := by
  simp [guardValidCoin, checkHasCoin, checkIsValidCoin_iff, ValidCoins]

/-- The `INVALID_COIN` guard holds exactly on nonzero non-denominations. -/
theorem guardInvalidCoin_iff (ctx : Context) :
    guardInvalidCoin ctx = true ↔
      ctx.currentCoinValue ≠ 0 ∧ ctx.currentCoinValue ∉ ValidCoins := by
  simp [guardInvalidCoin, checkHasCoin, checkIsValidCoin, ValidCoins]

/-- With both `NO_COIN` guards false the coin value is zero. -/
theorem coin_zero_of_guards_false {ctx : Context}
    (h1 : ¬ guardValidCoin ctx = true) (h2 : ¬ guardInvalidCoin ctx = true) :
    ctx.currentCoinValue = 0 := by
  by_contra hne
  rcases Classical.em (ctx.currentCoinValue ∈ ValidCoins) with hm | hm
  · exact h1 ((guardValidCoin_iff ctx).2 ⟨hne, hm⟩)
  · exact h2 ((guardInvalidCoin_iff ctx).2 ⟨hne, hm⟩)

/-- Valid denominations are positive. -/
theorem validCoin_pos {v : Int} (h : v ∈ ValidCoins) : 0 < v := by
  simp [ValidCoins] at h
  rcases h with h | h | h <;> simp [h]

/-! ### One-step evaluation of `send`, per state and event kind -/

theorem send_no_coin_half_turn (ctx : Context) :
    send .NO_COIN ctx .HALF_TURN = .ok (.SLOT_CLOSED, ctx) := rfl

theorem send_no_coin_add_coin (ctx : Context) (v : Int) :
    send .NO_COIN ctx (.ADD_COIN v) =
      if guardValidCoin { ctx with currentCoinValue := v } then
        .ok (.VALID_COIN, { ctx with currentCoinValue := v })
      else if guardInvalidCoin { ctx with currentCoinValue := v } then
        .ok (.INVALID_COIN, { ctx with currentCoinValue := v })
      else .ok (.NO_COIN, { ctx with currentCoinValue := v }) :=
  settle8_NO_COIN { ctx with currentCoinValue := v } (.ADD_COIN v)

theorem send_no_coin_remove_coin (ctx : Context) :
    send .NO_COIN ctx .REMOVE_COIN = .ok (.NO_COIN, ctx) := rfl

theorem send_no_coin_shutdown (ctx : Context) :
    send .NO_COIN ctx .SHUTDOWN = .ok (.SHUTDOWN, ctx) := rfl

theorem send_no_coin_tamper (ctx : Context) :
    send .NO_COIN ctx .TAMPER = .error .TAMPER := rfl

theorem send_invalid_coin_half_turn (ctx : Context) :
    send .INVALID_COIN ctx .HALF_TURN = .ok (.INVALID_COIN, ctx) := rfl

theorem send_invalid_coin_add_coin (ctx : Context) (v : Int) :
    send .INVALID_COIN ctx (.ADD_COIN v) = .ok (.INVALID_COIN, ctx) := rfl

theorem send_invalid_coin_remove_coin (ctx : Context) :
    send .INVALID_COIN ctx .REMOVE_COIN =
      .ok (.NO_COIN, { ctx with currentCoinValue := 0 }) := rfl

theorem send_invalid_coin_shutdown (ctx : Context) :
    send .INVALID_COIN ctx .SHUTDOWN = .ok (.INVALID_COIN, ctx) := rfl

theorem send_invalid_coin_tamper (ctx : Context) :
    send .INVALID_COIN ctx .TAMPER = .error .TAMPER := rfl

theorem send_valid_coin_half_turn (ctx : Context) :
    send .VALID_COIN ctx .HALF_TURN =
      .ok (.SLOT_CLOSED,
        { ctx with
            currentCoinValue := 0
            totalValue := ctx.totalValue + ctx.currentCoinValue
            numSales := ctx.numSales + 1 }) := rfl

theorem send_valid_coin_add_coin (ctx : Context) (v : Int) :
    send .VALID_COIN ctx (.ADD_COIN v) = .ok (.VALID_COIN, ctx) := rfl

theorem send_valid_coin_remove_coin (ctx : Context) :
    send .VALID_COIN ctx .REMOVE_COIN =
      .ok (.NO_COIN, { ctx with currentCoinValue := 0 }) := rfl

theorem send_valid_coin_shutdown (ctx : Context) :
    send .VALID_COIN ctx .SHUTDOWN = .ok (.VALID_COIN, ctx) := rfl

theorem send_valid_coin_tamper (ctx : Context) :
    send .VALID_COIN ctx .TAMPER = .error .TAMPER := rfl

theorem send_slot_closed_half_turn (ctx : Context) :
    send .SLOT_CLOSED ctx .HALF_TURN =
      if guardValidCoin ctx then .ok (.VALID_COIN, ctx)
      else if guardInvalidCoin ctx then .ok (.INVALID_COIN, ctx)
      else .ok (.NO_COIN, ctx) :=
  settle8_NO_COIN ctx .HALF_TURN

theorem send_slot_closed_add_coin (ctx : Context) (v : Int) :
    send .SLOT_CLOSED ctx (.ADD_COIN v) = .ok (.SLOT_CLOSED, ctx) := rfl

theorem send_slot_closed_remove_coin (ctx : Context) :
    send .SLOT_CLOSED ctx .REMOVE_COIN = .ok (.SLOT_CLOSED, ctx) := rfl

theorem send_slot_closed_shutdown (ctx : Context) :
    send .SLOT_CLOSED ctx .SHUTDOWN = .ok (.SLOT_CLOSED, ctx) := rfl

theorem send_slot_closed_tamper (ctx : Context) :
    send .SLOT_CLOSED ctx .TAMPER = .error .TAMPER := rfl

theorem send_shutdown (ctx : Context) (e : Event) :
    send .SHUTDOWN ctx e = .error e.kind := by
  cases e <;> rfl

/-! ### Invariants preserved by `send` -/

theorem validCoinInv_step {s : State} {ctx : Context} {e : Event} {s' : State}
    {ctx' : Context} (h : ValidCoinInv s ctx)
    (hs : send s ctx e = .ok (s', ctx')) : ValidCoinInv s' ctx' := by
  cases s <;> cases e <;>
    simp only [send_no_coin_half_turn, send_no_coin_add_coin, send_no_coin_remove_coin,
      send_no_coin_shutdown, send_no_coin_tamper, send_invalid_coin_half_turn,
      send_invalid_coin_add_coin, send_invalid_coin_remove_coin, send_invalid_coin_shutdown,
      send_invalid_coin_tamper, send_valid_coin_half_turn, send_valid_coin_add_coin,
      send_valid_coin_remove_coin, send_valid_coin_shutdown, send_valid_coin_tamper,
      send_slot_closed_half_turn, send_slot_closed_add_coin, send_slot_closed_remove_coin,
      send_slot_closed_shutdown, send_slot_closed_tamper, send_shutdown] at hs
  all_goals try split_ifs at hs with h1 h2
  all_goals try exact Except.noConfusion hs
  all_goals injection hs with hPair
  all_goals injection hPair with hA hB
  all_goals subst hA
  all_goals subst hB
  all_goals intro hv
  all_goals first
    | exact State.noConfusion hv
    | exact h rfl
    | exact ((guardValidCoin_iff _).1 h1).2

/-- Every reachable configuration satisfies `ValidCoinInv`. -/
theorem reachable_validCoinInv {s : State} {ctx : Context} (h : Reachable s ctx) :
    ValidCoinInv s ctx := by
  induction h with
  | init t0 => intro hv; exact State.noConfusion hv
  | step _ hs ih => exact validCoinInv_step ih hs

theorem valid_coin_ne_zero_states :
    ¬(State.VALID_COIN = State.NO_COIN ∨ State.VALID_COIN = State.SLOT_CLOSED ∨
      State.VALID_COIN = State.SHUTDOWN) := by decide

theorem invalid_coin_ne_zero_states :
    ¬(State.INVALID_COIN = State.NO_COIN ∨ State.INVALID_COIN = State.SLOT_CLOSED ∨
      State.INVALID_COIN = State.SHUTDOWN) := by decide

theorem coinInv_step {s : State} {ctx : Context} {e : Event} {s' : State}
    {ctx' : Context} (h : CoinInv s ctx) (hnn : e.payloadNN = true)
    (hs : send s ctx e = .ok (s', ctx')) : CoinInv s' ctx' := by
  obtain ⟨hpos, hzero, hmem⟩ := h
  cases s <;> cases e <;>
    simp only [send_no_coin_half_turn, send_no_coin_add_coin, send_no_coin_remove_coin,
      send_no_coin_shutdown, send_no_coin_tamper, send_invalid_coin_half_turn,
      send_invalid_coin_add_coin, send_invalid_coin_remove_coin, send_invalid_coin_shutdown,
      send_invalid_coin_tamper, send_valid_coin_half_turn, send_valid_coin_add_coin,
      send_valid_coin_remove_coin, send_valid_coin_shutdown, send_valid_coin_tamper,
      send_slot_closed_half_turn, send_slot_closed_add_coin, send_slot_closed_remove_coin,
      send_slot_closed_shutdown, send_slot_closed_tamper, send_shutdown] at hs
  all_goals try split_ifs at hs with h1 h2
  all_goals try exact Except.noConfusion hs
  all_goals injection hs with hPair
  all_goals injection hPair with hA hB
  all_goals subst hA
  all_goals subst hB
  all_goals first
    | exact ⟨hpos, hzero, hmem⟩
    | exact ⟨hpos, fun _ => hzero (Or.inl rfl), fun hv => State.noConfusion hv⟩
    | exact ⟨le_refl 0, fun _ => rfl, fun hv => State.noConfusion hv⟩
    | exact absurd (hzero (Or.inr (Or.inl rfl))) ((guardValidCoin_iff ctx).1 h1).1
    | exact absurd (hzero (Or.inr (Or.inl rfl))) ((guardInvalidCoin_iff ctx).1 h2).1
    | exact ⟨hpos, fun _ => hzero (Or.inr (Or.inl rfl)), fun hv => State.noConfusion hv⟩
    | exact ⟨of_decide_eq_true hnn, fun hd => absurd hd valid_coin_ne_zero_states,
        fun _ => ((guardValidCoin_iff _).1 h1).2⟩
    | exact ⟨of_decide_eq_true hnn, fun hd => absurd hd invalid_coin_ne_zero_states,
        fun hv => State.noConfusion hv⟩
    | exact ⟨of_decide_eq_true hnn, fun _ => coin_zero_of_guards_false h1 h2,
        fun hv => State.noConfusion hv⟩

/-- Every configuration reachable with non-negative `ADD_COIN` payloads
satisfies `CoinInv`. -/
theorem reachableNN_coinInv {s : State} {ctx : Context} (h : ReachableNN s ctx) :
    CoinInv s ctx := by
  induction h with
  | init t0 =>
      exact ⟨le_refl 0, fun _ => rfl, fun hv => State.noConfusion hv⟩
  | step _ hnn hs ih => exact coinInv_step ih hnn hs

/-- One step never decreases `totalValue` or `numSales`, as long as the
coin value is non-negative whenever the state is `VALID_COIN` (the only
state whose handlers run `RECORD_SALE`). -/
theorem totals_step (s : State) (ctx : Context) (e : Event)
    (hval : s = State.VALID_COIN → 0 ≤ ctx.currentCoinValue) :
    ctx.totalValue ≤ (resultCtx s ctx e).totalValue ∧
    ctx.numSales ≤ (resultCtx s ctx e).numSales := by
  cases s <;> cases e <;>
    simp only [resultCtx, send_no_coin_half_turn, send_no_coin_add_coin,
      send_no_coin_remove_coin, send_no_coin_shutdown, send_no_coin_tamper,
      send_invalid_coin_half_turn, send_invalid_coin_add_coin, send_invalid_coin_remove_coin,
      send_invalid_coin_shutdown, send_invalid_coin_tamper, send_valid_coin_half_turn,
      send_valid_coin_add_coin, send_valid_coin_remove_coin, send_valid_coin_shutdown,
      send_valid_coin_tamper, send_slot_closed_half_turn, send_slot_closed_add_coin,
      send_slot_closed_remove_coin, send_slot_closed_shutdown, send_slot_closed_tamper,
      send_shutdown]
  all_goals try split_ifs
  all_goals first
    | exact ⟨le_refl _, le_refl _⟩
    | (have h0 : 0 ≤ ctx.currentCoinValue := hval rfl
       exact ⟨by omega, by omega⟩)

/-- Every successful transition out of a coin-bearing state
(`INVALID_COIN` or `VALID_COIN`) into `NO_COIN` leaves the coin value zero:
the only such handlers run `CLEAR_COIN`. -/
theorem into_no_coin_clears {s : State} {ctx : Context} {e : Event} {ctx' : Context}
    (hcoin : s = State.INVALID_COIN ∨ s = State.VALID_COIN)
    (hs : send s ctx e = .ok (.NO_COIN, ctx')) : ctx'.currentCoinValue = 0 := by
  rcases hcoin with rfl | rfl <;> cases e <;>
    simp only [send_invalid_coin_half_turn, send_invalid_coin_add_coin,
      send_invalid_coin_remove_coin, send_invalid_coin_shutdown, send_invalid_coin_tamper,
      send_valid_coin_half_turn, send_valid_coin_add_coin, send_valid_coin_remove_coin,
      send_valid_coin_shutdown, send_valid_coin_tamper] at hs
  all_goals try exact Except.noConfusion hs
  all_goals injection hs with hPair
  all_goals injection hPair with hA hB
  all_goals first
    | exact State.noConfusion hA
    | (subst hB; rfl)

/-! ### The claimed properties -/

/-- C1: every event sent while the current state is `SHUTDOWN` produces a
contract-violation failure carrying the offending event kind (via the
catch-all handler's `INVALID_ACTION`), and the machine keeps state
`SHUTDOWN` and its context. -/
theorem shutdown_rejects_every_event (ctx : Context) (e : Event) :
    send .SHUTDOWN ctx e = .error e.kind ∧
    resultState .SHUTDOWN ctx e = .SHUTDOWN ∧
    resultCtx .SHUTDOWN ctx e = ctx := by
  refine ⟨send_shutdown ctx e, ?_, ?_⟩ <;>
    simp [resultState, resultCtx, send_shutdown]

/-- C2 counterexample: the claim's "never negative" part fails on the code.
Sending `ADD_COIN` with payload `-50` from the initial configuration is a
successful send that settles in `INVALID_COIN` with
`currentCoinValue = -50 < 0`. -/
theorem coin_can_go_negative :
    Reachable .INVALID_COIN
      { currentCoinValue := -50, totalValue := 0, numSales := 0, lastDispensedAt := 0 } ∧
    ({ currentCoinValue := -50, totalValue := 0, numSales := 0, lastDispensedAt := 0 } :
        Context).currentCoinValue < 0 :=
  ⟨Reachable.step (e := .ADD_COIN (-50)) (Reachable.init 0) (by rfl), by norm_num⟩

/-- C2 (amended): along runs whose `ADD_COIN` payloads are non-negative,
`currentCoinValue` is never negative and, while the state is `VALID_COIN`,
it is 0 or a member of the valid-denomination set; moreover every
transition into `NO_COIN` from `INVALID_COIN` or `VALID_COIN` (with any
payloads) leaves it 0. -/
theorem coin_value_invariant :
    (∀ s ctx, ReachableNN s ctx →
      0 ≤ ctx.currentCoinValue ∧
      (s = State.VALID_COIN →
        ctx.currentCoinValue = 0 ∨ ctx.currentCoinValue ∈ ValidCoins)) ∧
    (∀ s ctx e ctx', (s = State.INVALID_COIN ∨ s = State.VALID_COIN) →
      send s ctx e = .ok (.NO_COIN, ctx') → ctx'.currentCoinValue = 0) := by
  constructor
  · intro s ctx h
    obtain ⟨hpos, _, hmem⟩ := reachableNN_coinInv h
    exact ⟨hpos, fun hv => Or.inr (hmem hv)⟩
  · intro s ctx e ctx' hcoin hs
    exact into_no_coin_clears hcoin hs

theorem coin_value_invariant_witness :
    (0 ≤ (initContextAt 0).currentCoinValue ∧
      (State.NO_COIN = State.VALID_COIN →
        (initContextAt 0).currentCoinValue = 0 ∨
        (initContextAt 0).currentCoinValue ∈ ValidCoins)) ∧
    ({ currentCoinValue := 0, totalValue := 0, numSales := 0, lastDispensedAt := 7 } :
        Context).currentCoinValue = 0 :=
  ⟨coin_value_invariant.1 .NO_COIN (initContextAt 0) (ReachableNN.init 0),
   coin_value_invariant.2 .INVALID_COIN
     { currentCoinValue := 30, totalValue := 0, numSales := 0, lastDispensedAt := 7 }
     .REMOVE_COIN
     { currentCoinValue := 0, totalValue := 0, numSales := 0, lastDispensedAt := 7 }
     (Or.inl rfl) rfl⟩

/-- C3: the claim says colour and quality are independent draws, but in the
code the quality's GREAT/REGULAR branch tests `randColourNum < 2`: with the
quality draw fixed at `3/2`, moving the colour draw from `3/2` to `5/2`
changes the selected quality from GREAT to REGULAR (the spec's design notes
flag this reuse of the colour draw as a copy-paste slip). -/
theorem dispense_quality_reads_colour_draw :
    dispenseCandy (3 / 2) (3 / 2) = (CandyColour.GREEN, CandyQuality.GREAT) ∧
    dispenseCandy (5 / 2) (3 / 2) = (CandyColour.BLUE, CandyQuality.REGULAR) := by
  constructor <;> norm_num [dispenseCandy]

/-- C4: for every context, sending `HALF_TURN` in `VALID_COIN` settles in
`SLOT_CLOSED` with `totalValue` increased by the pre-turn coin value,
`numSales` incremented, and `currentCoinValue` cleared to 0 (`RECORD_SALE`
runs before `CLEAR_COIN`). -/
theorem half_turn_from_valid_coin_records_sale (ctx : Context) :
    send .VALID_COIN ctx .HALF_TURN =
      .ok (.SLOT_CLOSED,
        { ctx with
            currentCoinValue := 0
            totalValue := ctx.totalValue + ctx.currentCoinValue
            numSales := ctx.numSales + 1 }) :=
  send_valid_coin_half_turn ctx

/-- C5: for every valid denomination `v` and every context, sending
`ADD_COIN` with payload `v` in `NO_COIN` settles (after the automatic
cascade) in `VALID_COIN` with `currentCoinValue = v` and all other fields
unchanged. -/
theorem add_valid_coin_settles_in_valid_coin (v : Int) (ctx : Context)
    (hv : v ∈ ValidCoins) :
    send .NO_COIN ctx (.ADD_COIN v) =
      .ok (.VALID_COIN, { ctx with currentCoinValue := v }) := by
  rw [send_no_coin_add_coin]
  have hg : guardValidCoin { ctx with currentCoinValue := v } = true :=
    (guardValidCoin_iff _).2 ⟨(validCoin_pos hv).ne', hv⟩
  rw [hg]
  simp

theorem add_valid_coin_settles_in_valid_coin_witness :
    (100 : Int) ∈ ValidCoins ∧
    send .NO_COIN (initContextAt 0) (.ADD_COIN 100) =
      .ok (.VALID_COIN, { initContextAt 0 with currentCoinValue := 100 }) :=
  ⟨by decide,
   add_valid_coin_settles_in_valid_coin 100 (initContextAt 0) (by decide)⟩

/-- C6: for every nonzero `v` outside the valid-denomination set and every
context, sending `ADD_COIN` with payload `v` in `NO_COIN` settles in
`INVALID_COIN` with `currentCoinValue = v`. -/
theorem add_invalid_coin_settles_in_invalid_coin (v : Int) (ctx : Context)
    (h0 : v ≠ 0) (hv : v ∉ ValidCoins) :
    send .NO_COIN ctx (.ADD_COIN v) =
      .ok (.INVALID_COIN, { ctx with currentCoinValue := v }) := by
  rw [send_no_coin_add_coin]
  have hg1 : ¬ guardValidCoin { ctx with currentCoinValue := v } = true :=
    fun hgv => hv ((guardValidCoin_iff _).1 hgv).2
  have hg2 : guardInvalidCoin { ctx with currentCoinValue := v } = true :=
    (guardInvalidCoin_iff _).2 ⟨h0, hv⟩
  simp [hg1, hg2]

theorem add_invalid_coin_settles_in_invalid_coin_witness :
    (30 : Int) ≠ 0 ∧ (30 : Int) ∉ ValidCoins ∧
    send .NO_COIN (initContextAt 0) (.ADD_COIN 30) =
      .ok (.INVALID_COIN, { initContextAt 0 with currentCoinValue := 30 }) :=
  ⟨by decide, by decide,
   add_invalid_coin_settles_in_invalid_coin 30 (initContextAt 0) (by decide) (by decide)⟩

/-- C7: sending `TAMPER` in any non-terminal state produces a
contract-violation failure carrying the event kind, and both the state and
the context are unchanged. -/
theorem tamper_fails_and_preserves_config (s : State) (ctx : Context)
    (h : s ≠ State.SHUTDOWN) :
    send s ctx .TAMPER = .error .TAMPER ∧
    resultState s ctx .TAMPER = s ∧
    resultCtx s ctx .TAMPER = ctx := by
  have hs : send s ctx .TAMPER = .error .TAMPER := by
    cases s
    case SHUTDOWN => exact absurd rfl h
    all_goals rfl
  exact ⟨hs, by simp [resultState, hs], by simp [resultCtx, hs]⟩

theorem tamper_fails_and_preserves_config_witness :
    State.NO_COIN ≠ State.SHUTDOWN ∧
    (send .NO_COIN (initContextAt 0) .TAMPER = .error .TAMPER ∧
     resultState .NO_COIN (initContextAt 0) .TAMPER = .NO_COIN ∧
     resultCtx .NO_COIN (initContextAt 0) .TAMPER = initContextAt 0) :=
  ⟨by decide, tamper_fails_and_preserves_config .NO_COIN (initContextAt 0) (by decide)⟩

/-- C8: an event whose kind has no declared handler in the current state is
a silent no-op: the send succeeds and both the state and the context are
unchanged. -/
theorem unhandled_event_is_silent_noop (s : State) (ctx : Context) (e : Event)
    (h : handler s e.kind = none) :
    send s ctx e = .ok (s, ctx) := by
  unfold send
  rw [h]

theorem unhandled_event_is_silent_noop_witness :
    handler .VALID_COIN (Event.SHUTDOWN).kind = none ∧
    send .VALID_COIN (initContextAt 0) .SHUTDOWN = .ok (.VALID_COIN, initContextAt 0) :=
  ⟨rfl, unhandled_event_is_silent_noop .VALID_COIN (initContextAt 0) .SHUTDOWN rfl⟩

/-- C9: sending `ADD_COIN` with payload 0 in `NO_COIN` records the 0 and
then fires neither automatic guard, so the machine stays in `NO_COIN` with
the context unchanged (its coin value was already 0 in `NO_COIN`). -/
theorem add_zero_coin_is_noop (ctx : Context) (h : ctx.currentCoinValue = 0) :
    send .NO_COIN ctx (.ADD_COIN 0) = .ok (.NO_COIN, ctx) := by
  have hctx : { ctx with currentCoinValue := 0 } = ctx := by
    cases ctx
    simp_all
  rw [send_no_coin_add_coin, hctx]
  have hg1 : ¬ guardValidCoin ctx = true := fun hgv =>
    ((guardValidCoin_iff ctx).1 hgv).1 h
  have hg2 : ¬ guardInvalidCoin ctx = true := fun hgi =>
    ((guardInvalidCoin_iff ctx).1 hgi).1 h
  simp [hg1, hg2]

theorem add_zero_coin_is_noop_witness :
    (initContextAt 0).currentCoinValue = 0 ∧
    send .NO_COIN (initContextAt 0) (.ADD_COIN 0) = .ok (.NO_COIN, initContextAt 0) :=
  ⟨rfl, add_zero_coin_is_noop (initContextAt 0) rfl⟩

/-- C10: from any reachable configuration, processing any event — whether
it transitions, silently no-ops, or fails — never decreases `totalValue` or
`numSales`: `RECORD_SALE` is the only writer and it adds the coin value,
which is a valid (positive) denomination whenever `RECORD_SALE` can run. -/
theorem totals_monotone (s : State) (ctx : Context) (e : Event)
    (h : Reachable s ctx) :
    ctx.totalValue ≤ (resultCtx s ctx e).totalValue ∧
    ctx.numSales ≤ (resultCtx s ctx e).numSales := by
  have hinv := reachable_validCoinInv h
  exact totals_step s ctx e fun hv => le_of_lt (validCoin_pos (hinv hv))

theorem totals_monotone_witness :
    (initContextAt 0).totalValue ≤
      (resultCtx .NO_COIN (initContextAt 0) .HALF_TURN).totalValue ∧
    (initContextAt 0).numSales ≤
      (resultCtx .NO_COIN (initContextAt 0) .HALF_TURN).numSales :=
  totals_monotone .NO_COIN (initContextAt 0) .HALF_TURN (Reachable.init 0)

end CandyMachine
